import Mathlib

/-!
Shallow embedding of the proxy-rotation service
(`proxy_manager.py`, `updater.py`, `web_server.py`).

Modelling conventions:

* A measured latency is a `ℚ` (milliseconds); Python's `float('inf')`
  sentinel is `none`, so `Latency := Option ℚ` and `none` means
  "unreachable".  Comparison `latLe` mirrors IEEE comparison with `inf`.
* `ProxyManager.proxies` is a `List Proxy`.  `best_proxy` in Python is a
  reference aliasing a pool member (or `None`); every assignment in the
  source sets it to `self.pm.proxies[0]` or `None`, so it is always a pool
  member, and after deduplication pool members have pairwise distinct
  `url`s.  We therefore represent it as `Option String` (the member's
  `url`) and mutations through the alias (`best_proxy.latency = ...`)
  become `setLatencyOfUrl`.
* All network effects are oracles.  `verify_proxy_latency(proxy)` and the
  probe in `check_and_add_proxy` use only `proxy.url`
  (`session.get(self.test_target, proxy=proxy.url)`), and `update_remote`
  uses only `proxy.url` as well, so the probe oracle is
  `probe : String → Latency` and the remote publisher is an oracle
  `pub : String → RemoteOutcome` describing the HTTP outcome of the
  publish request.
* The two retry loops (`run_loop` step 3 and `force_update`) are embedded
  as fuel-indexed recursive functions returning `none` on fuel
  exhaustion; termination theorems show that fuel `pool size + 2`
  always suffices.
-/

namespace ProxyRotation

/-- A latency value: `some q` is a finite measurement in milliseconds,
`none` is the `float('inf')` unreachable sentinel. -/
abbrev Latency := Option ℚ

/-- `latLe a b` is the comparison `a <= b` used by
`proxies.sort(key=lambda x: x.latency)`, with `none` playing `inf`:
every finite value is below `inf`, and `inf <= inf`. -/
def latLe : Latency → Latency → Bool
  | _, none => true
  | none, some _ => false
  | some a, some b => a ≤ b

/-- The `Proxy` dataclass of `proxy_manager.py` (identity fields plus the
mutable `latency`; `latency` defaults to the unreachable sentinel). -/
structure Proxy where
  url : String
  protocol : String
  ip : String
  port : String
  latency : Latency := none
  source : String := "unknown"
deriving DecidableEq, Repr

/-- Sorting relation on pool members: ascending latency
(`key=lambda x: x.latency`). -/
def proxyLe (a b : Proxy) : Prop := latLe a.latency b.latency = true

instance : DecidableRel proxyLe := fun _ _ =>
  inferInstanceAs (Decidable (_ = true))

/-- `self.pm.proxies.sort(key=lambda x: x.latency)`: a stable sort by
ascending latency (Python's sort is stable; a stable sort's output is
unique, so insertion sort gives the same list). -/
def sortProxies (ps : List Proxy) : List Proxy :=
  List.insertionSort proxyLe ps

/-- The mutable state of `ProxyManager`: the pool and the `best_proxy`
reference (represented by the member's url, `none` for Python `None`). -/
structure PMState where
  proxies : List Proxy
  best : Option String
deriving DecidableEq, Repr

/-- Read the latency of the pool member aliased by url `u`
(the value of `best_proxy.latency` when `best_proxy` is the member with
url `u`); `none` (unreachable) if no such member exists. -/
def latencyOfUrl (ps : List Proxy) (u : String) : Latency :=
  match ps.find? (fun p => p.url == u) with
  | some p => p.latency
  | none => none

/-- Dereference the `best_proxy` alias: the pool member whose url the
`best` field holds. -/
def getBest (s : PMState) : Option Proxy :=
  s.best.bind (fun u => s.proxies.find? (fun p => p.url == u))

/-- In-place mutation through the alias
(`<member with url u>.latency = lat`), e.g. `self.pm.best_proxy.latency =
latency`: every pool member with url `u` gets latency `lat`. -/
def setLatencyOfUrl (s : PMState) (u : String) (lat : Latency) : PMState :=
  { s with proxies :=
      s.proxies.map (fun p => if p.url == u then { p with latency := lat } else p) }

/-- The success branch of `check_and_add_proxy` (proxy_manager.py 100-107):
the probe measured the finite latency `lat`, so the proxy is appended,
the pool re-sorted, and `best_proxy` set to `proxies[0]`. -/
def check_and_add_proxy (s : PMState) (p : Proxy) (lat : ℚ) : PMState :=
  let ps := sortProxies (s.proxies ++ [{ p with latency := some lat }])
  { proxies := ps, best := ps.head?.map (·.url) }

/-- One full pass of `continuous_validation_loop` (updater.py 61-88):
re-probe every member in place, re-sort, and — only when the pool is
non-empty, `best_proxy` is set and its (freshly updated) latency is the
unreachable sentinel — repoint `best_proxy` at `proxies[0]`.
(The source reads `self.pm.best_proxy.latency` through the alias; under
the maintained invariant `best_proxy` is a pool member identified by its
url.) -/
def continuous_validation_pass (probe : String → Latency) (s : PMState) : PMState :=
  let updated := s.proxies.map (fun p => { p with latency := probe p.url })
  let sorted := sortProxies updated
  let best' :=
    if sorted.isEmpty then s.best
    else
      match s.best with
      | some u =>
          if latencyOfUrl updated u = none then sorted.head?.map (·.url) else s.best
      | none => s.best
  { proxies := sorted, best := best' }

/-- The demote-and-repick block shared by updater.py 148-153, 190-196 and
200-206: set the rejected/dead candidate's latency to the unreachable
sentinel, re-sort, and pick `proxies[0]` as the new best unless its
latency is the sentinel (then `best_proxy = None`).  (The source indexes
`proxies[0]` in the else-branch; the pool is non-empty there because
demotion never removes the demoted member.) -/
def demoteAndPick (s : PMState) (u : String) : PMState :=
  let ps := sortProxies (setLatencyOfUrl s u none).proxies
  let best' :=
    match ps.head? with
    | some p => if p.latency = none then none else some p.url
    | none => none
  { proxies := ps, best := best' }

/-- Outcome of the HTTP request `update_remote` makes to the remote
consumer: a response with a status code and body, or a raised
exception (transport error). -/
inductive RemoteOutcome where
  | response (status : Nat) (body : String)
  | transportError
deriving DecidableEq, Repr

/-- The literal rejection marker matched against the response body
(updater.py line 31). -/
def sessionRegenMarker : String := "Session regeneration failed"

/-- Python's substring test `needle in hay` on character lists. -/
def listContainsSeg (needle : List Char) : List Char → Bool
  | [] => needle.isEmpty
  | c :: cs => needle.isPrefixOf (c :: cs) || listContainsSeg needle cs

/-- Python's substring test `needle in hay` on strings. -/
def strContains (hay needle : String) : Bool :=
  listContainsSeg needle.data hay.data

/-- `update_remote` (updater.py 18-42), as a function of the HTTP outcome:
status 200 with the rejection marker in the body → `False`; status 200
otherwise → `True` (and the caller's `current_proxy` is reassigned, which
the loop embeddings below perform); any other status → `False`; an
exception is caught and the function falls off the end, returning
Python's `None` (here `none`). -/
def update_remote (outcome : RemoteOutcome) : Option Bool :=
  match outcome with
  | .response status body =>
      if status = 200 then
        if strContains body sessionRegenMarker then some false else some true
      else some false
  | .transportError => none

/-- `ProxyUpdater` state relevant to rotation: the manager state plus
`current_proxy` (a snapshot of the record last accepted by the remote;
`none` for Python `None`). -/
structure UpdaterState where
  pm : PMState
  current : Option Proxy
deriving DecidableEq, Repr

/-- Result of one run of the tick-loop rotation block: the final state
and the list of proxies that were sent to `update_remote`, in order. -/
structure RotateOut where
  state : UpdaterState
  published : List Proxy
deriving DecidableEq, Repr

/-- The rotation block of `run_loop` step 3 (updater.py 132-158), the
`while self.pm.best_proxy:` loop, with explicit fuel (`none` = fuel ran
out).  Each iteration re-probes the best candidate and writes the fresh
latency through the alias (line 135).  A finite latency leads to a
publish attempt: `update_remote` returning `True` ends the loop (and
sets `current_proxy`); any other result (`False` or `None`) demotes the
candidate and re-picks (lines 148-153).  An unreachable fresh latency
breaks out of the loop for this tick (line 156). -/
def run_loop_rotation (probe : String → Latency) (pub : String → RemoteOutcome) :
    Nat → UpdaterState → Option RotateOut
  | 0, _ => none
  | n + 1, st =>
    match getBest st.pm with
    | none => some ⟨st, []⟩
    | some p =>
      match probe p.url with
      | some q =>
        match update_remote (pub p.url) with
        | some true =>
            some ⟨⟨setLatencyOfUrl st.pm p.url (some q), some { p with latency := some q }⟩,
                  [{ p with latency := some q }]⟩
        | _ =>
            (run_loop_rotation probe pub n
              ⟨demoteAndPick (setLatencyOfUrl st.pm p.url (some q)) p.url, st.current⟩).map
              (fun o => ⟨o.state, { p with latency := some q } :: o.published⟩)
      | none =>
          some ⟨⟨setLatencyOfUrl st.pm p.url none, st.current⟩, []⟩

/-- The structured result dict returned by `force_update`. -/
structure ForceResult where
  status : String
  message : String
  proxy : Option Proxy
deriving DecidableEq, Repr

/-- Result of a `force_update` run: the returned dict, the final state,
and the list of proxies sent to `update_remote`, in order. -/
structure ForceOut where
  result : ForceResult
  state : UpdaterState
  published : List Proxy
deriving DecidableEq, Repr

/-- The `while self.pm.best_proxy:` loop of `force_update`
(updater.py 178-208), with explicit fuel (`none` = fuel ran out).
Re-probe the best candidate and write the fresh latency through the
alias (line 181).  Finite latency: publish; acceptance returns the
success dict (and sets `current_proxy`), rejection or transport error
demotes and re-picks (lines 188-196).  Unreachable fresh latency:
demote and re-pick (lines 198-206).  Falling out of the loop (best
`None`) returns the all-failed error dict (line 208). -/
def force_update_loop (probe : String → Latency) (pub : String → RemoteOutcome) :
    Nat → UpdaterState → Option ForceOut
  | 0, _ => none
  | n + 1, st =>
    match getBest st.pm with
    | none =>
        some ⟨⟨"error", "All proxies failed verification or remote update", none⟩, st, []⟩
    | some p =>
      match probe p.url with
      | some q =>
        match update_remote (pub p.url) with
        | some true =>
            some ⟨⟨"success", "Updated to " ++ p.url, some { p with latency := some q }⟩,
                  ⟨setLatencyOfUrl st.pm p.url (some q), some { p with latency := some q }⟩,
                  [{ p with latency := some q }]⟩
        | _ =>
            (force_update_loop probe pub n
              ⟨demoteAndPick (setLatencyOfUrl st.pm p.url (some q)) p.url, st.current⟩).map
              (fun o => ⟨o.result, o.state, { p with latency := some q } :: o.published⟩)
      | none =>
          (force_update_loop probe pub n
            ⟨demoteAndPick (setLatencyOfUrl st.pm p.url none) p.url, st.current⟩).map
            (fun o => ⟨o.result, o.state, o.published⟩)

/-- `force_update` (updater.py 167-210): if `best_proxy` is `None`, run a
refresh first (its outcome is the oracle `refreshed`); if a best exists
run the retry loop, otherwise return the no-proxies error dict. -/
def force_update (probe : String → Latency) (pub : String → RemoteOutcome)
    (refreshed : PMState) (fuel : Nat) (st : UpdaterState) : Option ForceOut :=
  let st1 := if st.pm.best = none then { st with pm := refreshed } else st
  if st1.pm.best = none then
    some ⟨⟨"error", "No proxies available", none⟩, st1, []⟩
  else force_update_loop probe pub fuel st1

/-- The JSON object returned by `/api/status` (web_server.py 26-35):
the `best_proxy` field is `proxy_manager.best_proxy` (or `None`), the
`total_available` field is `len(proxy_manager.proxies)`. -/
structure StatusResponse where
  best_proxy : Option Proxy
  total_available : Nat
deriving DecidableEq, Repr

/-- `get_status` (web_server.py 26-35). -/
def get_status (s : PMState) : StatusResponse :=
  ⟨getBest s, s.proxies.length⟩

/-- The inner `dedupe` of `refresh_proxies` (proxy_manager.py 133-140):
keep the first occurrence of each url, preserving order (`seen` is the
set of urls already emitted). -/
def dedupeAux (seen : List String) : List Proxy → List Proxy
  | [] => []
  | p :: rest =>
    if p.url ∈ seen then dedupeAux seen rest
    else p :: dedupeAux (p.url :: seen) rest

/-- `dedupe(proxies)` from `refresh_proxies`. -/
def dedupe (ps : List Proxy) : List Proxy := dedupeAux [] ps

/-- `slice_list` (proxy_manager.py 156-157): `lst[:count] if lst else []`. -/
def slice_list (l : List Proxy) (count : Nat) : List Proxy :=
  if l.isEmpty then [] else l.take count

/-- `min_count` (proxy_manager.py 146-152): the minimum of the non-zero
counts, or 0 when every count is zero. -/
def minNonZeroCount (counts : List Nat) : Nat :=
  match counts.filter (fun c => 0 < c) with
  | [] => 0
  | c :: cs => cs.foldl Nat.min c

/-- The balancing step of `refresh_proxies` (proxy_manager.py 145-159),
applied to the two deduplicated per-source lists. -/
def balance (p1 p2 : List Proxy) : List Proxy :=
  let minCount := minNonZeroCount [p1.length, p2.length]
  slice_list p1 minCount ++ slice_list p2 minCount

/-- The pre-probe candidate list of `refresh_proxies`
(proxy_manager.py 132-167): per-source dedupe, balance, then the inline
global deduplication (lines 162-167, same first-occurrence logic). -/
def mergedCandidates (raw1 raw2 : List Proxy) : List Proxy :=
  dedupe (balance (dedupe raw1) (dedupe raw2))

/-- `refresh_proxies` (proxy_manager.py 125-185): build the unique
candidate list, reset the pool, then run `check_and_add_proxy` for every
candidate; candidates whose probe fails are ignored.  The concurrent
`asyncio.gather` completes the insertions in some order; membership and
the sorted result are independent of that order, and we take list order
as the completion order. -/
def refresh_proxies (probe : String → Latency) (raw1 raw2 : List Proxy) : PMState :=
  (mergedCandidates raw1 raw2).foldl
    (fun s p =>
      match probe p.url with
      | some q => check_and_add_proxy s p q
      | none => s)
    ⟨[], none⟩

/-- Boolean check of the spec's ordering invariant: every adjacent pair
of pool members is in ascending latency order. -/
def poolSortedB : List Proxy → Bool
  | [] => true
  | [_] => true
  | a :: b :: rest => latLe a.latency b.latency && poolSortedB (b :: rest)

/-- The spec's ordering invariant: adjacent pool members are in ascending
latency order (see `poolSorted_iff_chain'` for the adjacency reading). -/
abbrev poolSorted (ps : List Proxy) : Prop :=
  poolSortedB ps = true

/-- Number of pool members whose latency is finite (reachable). -/
def countFinite (ps : List Proxy) : Nat :=
  ps.countP (fun p => p.latency.isSome)

/-! Concrete fixtures used by counterexamples and witnesses. -/

/-- A SOCKS5 candidate with measured latency 50 ms. -/
def P1 : Proxy :=
  { url := "socks5://10.0.0.1:1080", protocol := "socks5", ip := "10.0.0.1",
    port := "1080", latency := some 50, source := "github_socks5" }

/-- An HTTP candidate with measured latency 100 ms. -/
def P2 : Proxy :=
  { url := "http://10.0.0.2:8080", protocol := "http", ip := "10.0.0.2",
    port := "8080", latency := some 100, source := "github_http" }

/-- An HTTP candidate with measured latency 75 ms. -/
def P3 : Proxy :=
  { url := "http://10.0.0.3:3128", protocol := "http", ip := "10.0.0.3",
    port := "3128", latency := some 75, source := "github_http" }

/-- Probe oracle: `P1` is unreachable, everything else answers in 40 ms. -/
def probeFailP1 : String → Latency := fun u => if u == P1.url then none else some 40

/-- Probe oracle: every proxy answers in 40 ms. -/
def probeAll40 : String → Latency := fun _ => some 40

/-- Probe oracle: every proxy is unreachable. -/
def probeAllFail : String → Latency := fun _ => none

/-- Publisher oracle: every publish attempt is accepted (HTTP 200, plain body). -/
def pubAccept : String → RemoteOutcome := fun _ => .response 200 "ok"

/-- Publisher oracle: publishing `P1` hits a transport error, everything
else is accepted. -/
def pubTransportFailP1 : String → RemoteOutcome :=
  fun u => if u == P1.url then .transportError else .response 200 "ok"

/-- Publisher oracle: `P1` is deliberately rejected with the marker body,
everything else is accepted. -/
def pubRejectP1 : String → RemoteOutcome :=
  fun u => if u == P1.url then .response 200 sessionRegenMarker else .response 200 "ok"

/-- Pool holding `P1` (50 ms) and `P2` (100 ms), best pointing at `P1`. -/
def twoPool : PMState := ⟨[P1, P2], some P1.url⟩

/-- Updater state over `twoPool` with no active proxy. -/
def twoState : UpdaterState := ⟨twoPool, none⟩

/-- Pool holding only `P1`, best pointing at `P1`. -/
def onePool : PMState := ⟨[P1], some P1.url⟩

/-- Updater state over `onePool` with no active proxy. -/
def oneState : UpdaterState := ⟨onePool, none⟩

/-- State for the status-query counterexample: the controller's active
proxy is `P1` while the pool's best candidate is `P2`. -/
def statusState : UpdaterState := ⟨⟨[P2], some P2.url⟩, some P1⟩

/-! Helper lemmas about the sorting relation and the pool operations. -/

/-- The latency comparison is total. -/
theorem latLe_total (a b : Latency) : latLe a b = true ∨ latLe b a = true := by
  cases a <;> cases b <;> simp [latLe]
  exact le_total _ _

/-- The latency comparison is transitive. -/
theorem latLe_trans {a b c : Latency} (h1 : latLe a b = true) (h2 : latLe b c = true) :
    latLe a c = true := by
  cases a <;> cases b <;> cases c <;> simp_all [latLe]
  exact le_trans h1 h2

instance : IsTotal Proxy proxyLe := ⟨fun a b => latLe_total a.latency b.latency⟩

instance : IsTrans Proxy proxyLe := ⟨fun _ _ _ h1 h2 => latLe_trans h1 h2⟩

/-- `sortProxies` sorts. -/
theorem sortProxies_sorted (ps : List Proxy) : List.Sorted proxyLe (sortProxies ps) :=
  List.sorted_insertionSort proxyLe ps

/-- `sortProxies` permutes its input. -/
theorem sortProxies_perm (ps : List Proxy) : (sortProxies ps).Perm ps :=
  List.perm_insertionSort proxyLe ps

/-- `poolSorted` is exactly the chain of `proxyLe` over adjacent pairs. -/
theorem poolSorted_iff_chain' (ps : List Proxy) :
    poolSorted ps ↔ List.Chain' proxyLe ps := by
  induction ps with
  | nil => exact ⟨fun _ => List.chain'_nil, fun _ => rfl⟩
  | cons a l ih =>
    cases l with
    | nil => exact ⟨fun _ => List.chain'_singleton a, fun _ => rfl⟩
    | cons b rest =>
      simp only [poolSorted, poolSortedB, Bool.and_eq_true, List.chain'_cons] at *
      exact and_congr Iff.rfl ih

/-- The output of `sortProxies` satisfies the ordering invariant. -/
theorem sortProxies_poolSorted (ps : List Proxy) : poolSorted (sortProxies ps) :=
  (poolSorted_iff_chain' _).mpr (List.Pairwise.chain' (sortProxies_sorted ps))

/-- Dereferencing a set `best_proxy` yields a pool member whose url is the
stored one. -/
theorem getBest_eq_some {s : PMState} {p : Proxy} (h : getBest s = some p) :
    p ∈ s.proxies ∧ s.best = some p.url := by
  unfold getBest at h
  cases hb : s.best with
  | none => rw [hb] at h; simp at h
  | some u =>
    rw [hb] at h
    simp only [Option.some_bind] at h
    refine ⟨List.mem_of_find?_eq_some h, ?_⟩
    have hbeq := List.find?_some h
    exact congrArg some (eq_of_beq hbeq).symm

/-- The head of a sorted pool is a minimum for `proxyLe`. -/
theorem head_min_of_sorted {ps : List Proxy} {p : Proxy}
    (hs : List.Sorted proxyLe ps) (hh : ps.head? = some p) :
    ∀ q ∈ ps, proxyLe p q := by
  cases ps with
  | nil => simp at hh
  | cons a l =>
    simp only [List.head?_cons, Option.some.injEq] at hh
    subst hh
    intro q hq
    rcases List.mem_cons.mp hq with rfl | hql
    · exact latLe_total q.latency q.latency |>.elim id id
    · exact List.rel_of_sorted_cons hs q hql

/-! Claim theorems. -/

/-- Claim C5, counterexample: the claim states the ordering invariant
holds after every pool mutation, including "a demotion during rotation".
In the tick loop (updater.py line 135 followed by the break at 156), a
failed re-verification writes the unreachable sentinel onto the best
member without re-sorting: starting from the sorted pool `[P1(50ms),
P2(100ms)]` with `P1` failing its re-probe, the rotation block ends with
the pool `[P1(inf), P2(100ms)]`, whose adjacent pair violates ascending
latency order. -/
theorem C5_counterexample :
    run_loop_rotation probeFailP1 pubAccept 3 twoState =
      some ⟨⟨⟨[{ P1 with latency := none }, P2], some P1.url⟩, none⟩, []⟩ ∧
    ¬ poolSorted [{ P1 with latency := none }, P2] := by
  constructor
  · decide
  · decide

/-- Claim C5, amended: the ordering invariant does hold after the three
re-sorting mutations — insertion by `check_and_add_proxy`, a full
continuous-validation pass, and the demote-and-repick block used on
publisher rejection — but not after the tick loop's re-verification
failure, which mutates a latency in place without re-sorting. -/
theorem C5_amended (s : PMState) (p : Proxy) (q : ℚ) (probe : String → Latency)
    (u : String) :
    poolSorted (check_and_add_proxy s p q).proxies ∧
    poolSorted (continuous_validation_pass probe s).proxies ∧
    poolSorted (demoteAndPick s u).proxies := by
  refine ⟨?_, ?_, ?_⟩
  · exact sortProxies_poolSorted _
  · exact sortProxies_poolSorted _
  · exact sortProxies_poolSorted _

/-- `min_count` over the two source counts, computed. -/
theorem minNonZeroCount_pair (a b : Nat) :
    minNonZeroCount [a, b] =
      if 0 < a then (if 0 < b then Nat.min a b else a)
      else (if 0 < b then b else 0) := by
  unfold minNonZeroCount
  by_cases ha : 0 < a <;> by_cases hb : 0 < b <;>
    simp [List.filter_cons, List.filter_nil, ha, hb]

/-- Claim C6: with `n` the minimum count over the non-empty deduplicated
source lists, the merged pre-probe list is exactly the first `n` entries
of each non-empty source list; a source with zero candidates is excluded
from the minimum computation and contributes nothing, so the other
source contributes all of its entries. -/
theorem C6_fairness_balancing (q1 q2 : List Proxy) :
    (q1 ≠ [] → q2 ≠ [] →
      balance q1 q2 =
        q1.take (Nat.min q1.length q2.length) ++
        q2.take (Nat.min q1.length q2.length)) ∧
    (q2 = [] → balance q1 q2 = q1) ∧
    (q1 = [] → balance q1 q2 = q2) := by
  refine ⟨?_, ?_, ?_⟩
  · intro h1 h2
    have ha : 0 < q1.length := List.length_pos.mpr h1
    have hb : 0 < q2.length := List.length_pos.mpr h2
    have he1 : q1.isEmpty = false := by simpa [List.isEmpty_iff] using h1
    have he2 : q2.isEmpty = false := by simpa [List.isEmpty_iff] using h2
    simp [balance, minNonZeroCount_pair, ha, hb, slice_list, he1, he2]
  · intro h2
    subst h2
    by_cases h1 : q1 = []
    · subst h1; simp [balance, minNonZeroCount_pair, slice_list]
    · have ha : 0 < q1.length := List.length_pos.mpr h1
      have he1 : q1.isEmpty = false := by simpa [List.isEmpty_iff] using h1
      simp [balance, minNonZeroCount_pair, ha, slice_list, he1]
  · intro h1
    subst h1
    by_cases h2 : q2 = []
    · subst h2; simp [balance, minNonZeroCount_pair, slice_list]
    · have hb : 0 < q2.length := List.length_pos.mpr h2
      have he2 : q2.isEmpty = false := by simpa [List.isEmpty_iff] using h2
      simp [balance, minNonZeroCount_pair, hb, slice_list, he2]

/-- Claim C6, witness: sources of sizes 2 and 3 contribute their first
2 entries each. -/
theorem C6_fairness_balancing_witness :
    balance [P1, P2] [P3, P1, P2] =
      [P1, P2].take (Nat.min ([P1, P2] : List Proxy).length ([P3, P1, P2] : List Proxy).length) ++
      [P3, P1, P2].take (Nat.min ([P1, P2] : List Proxy).length ([P3, P1, P2] : List Proxy).length) :=
  (C6_fairness_balancing [P1, P2] [P3, P1, P2]).1 (by decide) (by decide)

/-- Deduplication keeps a subsequence of its input (first-seen order is
preserved). -/
theorem dedupeAux_sublist (seen : List String) (l : List Proxy) :
    (dedupeAux seen l).Sublist l := by
  induction l generalizing seen with
  | nil => simp [dedupeAux]
  | cons p rest ih =>
    unfold dedupeAux
    by_cases h : p.url ∈ seen
    · simp only [if_pos h]
      exact (ih seen).trans (List.sublist_cons_self p rest)
    · simp only [if_neg h]
      exact (ih (p.url :: seen)).cons₂ p

/-- The urls emitted by deduplication are pairwise distinct and avoid the
`seen` set. -/
theorem dedupeAux_urls_nodup (seen : List String) (l : List Proxy) :
    ((dedupeAux seen l).map (fun p => p.url)).Nodup ∧
    ∀ u ∈ (dedupeAux seen l).map (fun p => p.url), u ∉ seen := by
  induction l generalizing seen with
  | nil => simp [dedupeAux]
  | cons p rest ih =>
    unfold dedupeAux
    by_cases h : p.url ∈ seen
    · simpa [if_pos h] using ih seen
    · simp only [if_neg h, List.map_cons]
      obtain ⟨ihn, ihs⟩ := ih (p.url :: seen)
      refine ⟨List.nodup_cons.mpr ⟨fun hmem => ?_, ihn⟩, ?_⟩
      · exact (ihs p.url hmem) (List.mem_cons_self p.url seen)
      · intro u hu
        rcases List.mem_cons.mp hu with rfl | hu'
        · exact h
        · intro hus
          exact (ihs u hu') (List.mem_cons_of_mem _ hus)

/-- Every url of the input survives deduplication (represented by its
first occurrence) unless it was already in the `seen` set. -/
theorem dedupeAux_covers (seen : List String) (l : List Proxy) :
    ∀ p ∈ l, p.url ∈ seen ∨ ∃ q ∈ dedupeAux seen l, q.url = p.url := by
  induction l generalizing seen with
  | nil => simp
  | cons a rest ih =>
    intro p hp
    unfold dedupeAux
    by_cases h : a.url ∈ seen
    · simp only [if_pos h]
      rcases List.mem_cons.mp hp with rfl | hp'
      · exact Or.inl h
      · exact ih seen p hp'
    · simp only [if_neg h]
      rcases List.mem_cons.mp hp with rfl | hp'
      · exact Or.inr ⟨p, List.mem_cons_self p _, rfl⟩
      · rcases ih (a.url :: seen) p hp' with hseen | ⟨q, hq, hqu⟩
        · rcases List.mem_cons.mp hseen with heq | hs
          · exact Or.inr ⟨a, List.mem_cons_self a _, heq.symm⟩
          · exact Or.inl hs
        · exact Or.inr ⟨q, List.mem_cons_of_mem a hq, hqu⟩

/-- The pool built by the refresh fold holds (up to the sort's
permutation) the initial members plus exactly the candidates whose probe
succeeded, url-wise. -/
theorem refresh_foldl_urls (probe : String → Latency) (l : List Proxy) (s : PMState) :
    ((l.foldl (fun s p =>
        match probe p.url with
        | some q => check_and_add_proxy s p q
        | none => s) s).proxies.map (fun p => p.url)).Perm
      ((s.proxies.map (fun p => p.url)) ++
        ((l.filter (fun p => (probe p.url).isSome)).map (fun p => p.url))) := by
  induction l generalizing s with
  | nil => simp
  | cons p rest ih =>
    simp only [List.foldl_cons, List.filter_cons]
    cases hp : probe p.url with
    | none =>
      simp only [hp, Option.isSome_none, Bool.false_eq_true, if_false]
      simpa using ih s
    | some q =>
      simp only [hp, Option.isSome_some, if_true, List.map_cons]
      have hmain := ih (check_and_add_proxy s p q)
      have hperm : ((check_and_add_proxy s p q).proxies.map (fun p => p.url)).Perm
          ((s.proxies.map (fun p => p.url)) ++ [p.url]) := by
        have hm := (sortProxies_perm (s.proxies ++ [{ p with latency := some q }])).map
          (fun p => p.url)
        simpa [check_and_add_proxy] using hm
      refine hmain.trans ?_
      refine (hperm.append_right _).trans ?_
      rw [List.append_assoc]
      exact List.Perm.refl _

/-- Claim C7: the probed candidate set of a refresh, and hence the
refreshed pool, contains at most one entry per endpoint key (the url,
which encodes protocol, host and port, regardless of origin tag), and
per-source deduplication preserves first-seen order: it keeps a
subsequence of the input in which every input url is still represented. -/
theorem C7_deduplication (raw1 raw2 : List Proxy) (probe : String → Latency) :
    ((mergedCandidates raw1 raw2).map (fun p => p.url)).Nodup ∧
    ((refresh_proxies probe raw1 raw2).proxies.map (fun p => p.url)).Nodup ∧
    (dedupe raw1).Sublist raw1 ∧
    (∀ p ∈ raw1, ∃ q ∈ dedupe raw1, q.url = p.url) := by
  have hmerged : ((mergedCandidates raw1 raw2).map (fun p => p.url)).Nodup :=
    (dedupeAux_urls_nodup [] _).1
  refine ⟨hmerged, ?_, dedupeAux_sublist [] raw1, ?_⟩
  · have hperm := refresh_foldl_urls probe (mergedCandidates raw1 raw2) ⟨[], none⟩
    simp only [List.map_nil, List.nil_append] at hperm
    have hsubmap :=
      (List.filter_sublist (p := fun p => (probe p.url).isSome)
        (mergedCandidates raw1 raw2)).map (fun p => p.url)
    have hnod := hmerged.sublist hsubmap
    unfold refresh_proxies
    exact hperm.nodup_iff.mpr hnod
  · intro p hp
    rcases dedupeAux_covers [] raw1 p hp with h | h
    · simp at h
    · exact h

/-- Claim C1, counterexample: the claim says that after a
continuous-validation pass in which all members became unreachable the
reported best candidate is "none".  In the code (updater.py 77-88) the
pass re-points `best_proxy` at `proxies[0]` whenever the old best's
latency degraded to the sentinel and the pool is non-empty — without
checking that `proxies[0]` is reachable.  Starting from the pool `[P1]`
with `best_proxy = P1` and a pass in which every probe fails, the pool is
non-empty, every member is unreachable, and yet `best_proxy` is not
`None` (it is the unreachable record `P1`). -/
theorem C1_counterexample :
    (continuous_validation_pass probeAllFail onePool).proxies ≠ [] ∧
    (∀ p ∈ (continuous_validation_pass probeAllFail onePool).proxies,
      p.latency = none) ∧
    (continuous_validation_pass probeAllFail onePool).best ≠ none := by
  refine ⟨by decide, by decide, by decide⟩

/-- Claim C1, amended: a continuous-validation pass reassigns
`best_proxy` only when the pool is non-empty and the previous best's
freshly measured latency is the unreachable sentinel, and it then points
at the minimum-latency member of the re-sorted pool even when that member
is itself unreachable.  So after a pass in which all members became
unreachable (and a best was set), the reported best candidate is the
minimum-latency unreachable record, not "none". -/
theorem C1_amended (probe : String → Latency) (s : PMState) (u : String)
    (hb : s.best = some u)
    (hinf : latencyOfUrl (s.proxies.map (fun p => { p with latency := probe p.url })) u = none)
    (hne : s.proxies ≠ []) :
    ∃ p, (continuous_validation_pass probe s).best = some p.url ∧
      p ∈ (continuous_validation_pass probe s).proxies ∧
      ∀ q ∈ (continuous_validation_pass probe s).proxies, proxyLe p q := by
  have hlen : (sortProxies (s.proxies.map (fun p => { p with latency := probe p.url }))).length
      = s.proxies.length := by
    rw [(sortProxies_perm _).length_eq, List.length_map]
  cases hsp : sortProxies (s.proxies.map (fun p => { p with latency := probe p.url })) with
  | nil =>
    exfalso
    rw [hsp] at hlen
    exact hne (List.length_eq_zero.mp hlen.symm)
  | cons a t =>
    have hcv : continuous_validation_pass probe s = ⟨a :: t, some a.url⟩ := by
      unfold continuous_validation_pass
      simp [hb, hinf, hsp]
    refine ⟨a, by rw [hcv], by rw [hcv]; exact List.mem_cons_self a t, ?_⟩
    intro q hq
    rw [hcv] at hq
    have hsorted : List.Sorted proxyLe (a :: t) := by
      rw [← hsp]; exact sortProxies_sorted _
    exact head_min_of_sorted hsorted rfl q hq

/-- Claim C1, witness for the amended statement at the concrete
all-unreachable pass over the pool `[P1]`. -/
theorem C1_amended_witness :
    ∃ p, (continuous_validation_pass probeAllFail onePool).best = some p.url ∧
      p ∈ (continuous_validation_pass probeAllFail onePool).proxies ∧
      ∀ q ∈ (continuous_validation_pass probeAllFail onePool).proxies, proxyLe p q :=
  C1_amended probeAllFail onePool P1.url (by decide) (by decide) (by decide)

/-- Claim C8, counterexample: the claim says the status query reports the
Rotation Controller's currently published active proxy.  The endpoint
(web_server.py 26-35) returns `proxy_manager.best_proxy`, not
`updater.current_proxy`: in the state where the controller's active proxy
is `P1` while the pool's best candidate is `P2`, the status response
carries `P2`, not the active `P1`. -/
theorem C8_counterexample :
    (get_status statusState.pm).best_proxy ≠ statusState.current ∧
    statusState.current ≠ none := by
  refine ⟨by decide, by decide⟩

/-- Claim C8, amended: the status query returns the pool's best candidate
(under the pool invariant — sorted pool, `best_proxy = proxies[0]` — a
minimum-latency member) together with the pool size; the Rotation
Controller's active proxy is not consulted. -/
theorem C8_amended (s : PMState)
    (hs : poolSorted s.proxies)
    (hb : s.best = s.proxies.head?.map (fun p => p.url)) :
    (get_status s).total_available = s.proxies.length ∧
    ∀ q ∈ s.proxies, ∃ p, (get_status s).best_proxy = some p ∧ proxyLe p q := by
  refine ⟨rfl, ?_⟩
  intro q hq
  cases hps : s.proxies with
  | nil => rw [hps] at hq; simp at hq
  | cons a t =>
    have hsorted : List.Sorted proxyLe (a :: t) := by
      rw [← hps]
      exact List.chain'_iff_pairwise.mp ((poolSorted_iff_chain' _).mp hs)
    have hgb : (get_status s).best_proxy = some a := by
      show getBest s = some a
      unfold getBest
      rw [hb, hps]
      simp only [List.head?_cons, Option.map_some', Option.some_bind]
      exact List.find?_cons_of_pos _ (by simp)
    refine ⟨a, hgb, ?_⟩
    rw [hps] at hq
    exact head_min_of_sorted hsorted rfl q hq

/-- Claim C8, witness for the amended statement over the sorted pool
`[P1 (50ms), P2 (100ms)]`. -/
theorem C8_amended_witness :
    (get_status twoPool).total_available = twoPool.proxies.length ∧
    ∀ q ∈ twoPool.proxies, ∃ p, (get_status twoPool).best_proxy = some p ∧ proxyLe p q :=
  C8_amended twoPool (by decide) (by decide)

/-- Claim C3, counterexample: the claim says a publish transport failure
abandons the rotation attempt for the tick without demoting the
candidate.  In the code an exception in `update_remote` is caught and the
function returns Python `None` (updater.py 41-42), which the tick loop's
`if success:` treats like a rejection (updater.py 140-153): starting from
the pool `[P1 (50ms), P2 (100ms)]` where publishing `P1` raises a
transport error and `P2` is accepted, the tick loop demotes `P1` to the
unreachable sentinel and publishes `P2` within the same tick — two
publish attempts, `P1` left demoted. -/
theorem C3_counterexample :
    update_remote (pubTransportFailP1 P1.url) = none ∧
    run_loop_rotation probeAll40 pubTransportFailP1 3 twoState =
      some ⟨⟨⟨[{ P2 with latency := some 40 }, { P1 with latency := none }], some P2.url⟩,
             some { P2 with latency := some 40 }⟩,
            [{ P1 with latency := some 40 }, { P2 with latency := some 40 }]⟩ := by
  refine ⟨by decide, by decide⟩

/-- Claim C3, amended: `update_remote` returns `None` on a transport
error, `False` on a deliberate rejection (marker match) or any non-200
response; the tick loop treats every non-`True` result identically —
the candidate is demoted and the loop retries with the next best
candidate in the same tick — so a transport failure does not abandon the
attempt. -/
theorem C3_amended (probe : String → Latency) (pub : String → RemoteOutcome)
    (n : Nat) (st : UpdaterState) (p : Proxy) (q : ℚ)
    (hb : getBest st.pm = some p)
    (hq : probe p.url = some q)
    (hr : update_remote (pub p.url) ≠ some true) :
    update_remote RemoteOutcome.transportError = none ∧
    run_loop_rotation probe pub (n + 1) st =
      (run_loop_rotation probe pub n
        ⟨demoteAndPick (setLatencyOfUrl st.pm p.url (some q)) p.url, st.current⟩).map
        (fun o => ⟨o.state, { p with latency := some q } :: o.published⟩) := by
  refine ⟨rfl, ?_⟩
  cases hur : update_remote (pub p.url) with
  | none => simp [run_loop_rotation, hb, hq, hur]
  | some b =>
    cases b with
    | true => exact absurd hur hr
    | false => simp [run_loop_rotation, hb, hq, hur]

/-- Claim C3, witness for the amended statement: the transport failure on
`P1` demotes it and the loop recurses. -/
theorem C3_amended_witness :
    update_remote RemoteOutcome.transportError = none ∧
    run_loop_rotation probeAll40 pubTransportFailP1 3 twoState =
      (run_loop_rotation probeAll40 pubTransportFailP1 2
        ⟨demoteAndPick (setLatencyOfUrl twoState.pm P1.url (some 40)) P1.url,
         twoState.current⟩).map
        (fun o => ⟨o.state, { P1 with latency := some 40 } :: o.published⟩) :=
  C3_amended probeAll40 pubTransportFailP1 2 twoState P1 40 (by decide) (by decide)
    (by decide)

/-- Claim C4, counterexample: the claim says that in the periodic tick a
failed re-verification of the best candidate demotes it and retries with
the next best candidate.  In the code (updater.py 154-158) the tick loop
`break`s instead: starting from the pool `[P1 (50ms), P2 (100ms)]` where
`P1` fails its re-probe and the publisher would accept anything, the tick
rotation ends with no publish attempt at all (`published = []`, no active
proxy) even though the viable candidate `P2` was next. -/
theorem C4_counterexample :
    run_loop_rotation probeFailP1 pubAccept 3 twoState =
      some ⟨⟨⟨[{ P1 with latency := none }, P2], some P1.url⟩, none⟩, []⟩ ∧
    P2 ∈ [{ P1 with latency := none }, P2] ∧ P2.latency ≠ none := by
  refine ⟨by decide, by decide, by decide⟩

/-- Claim C4, amended: the two rotation paths diverge on re-verification
failure.  In force rotation (updater.py 197-206) the candidate is demoted
and the loop retries with the next best, as on a publisher rejection; in
the periodic tick (updater.py 154-158) the candidate's latency is set to
the unreachable sentinel in place but rotation is abandoned for the tick
(no retry, no re-sort). -/
theorem C4_amended (probe : String → Latency) (pub : String → RemoteOutcome)
    (n : Nat) (st : UpdaterState) (p : Proxy)
    (hb : getBest st.pm = some p)
    (hq : probe p.url = none) :
    force_update_loop probe pub (n + 1) st =
      (force_update_loop probe pub n
        ⟨demoteAndPick (setLatencyOfUrl st.pm p.url none) p.url, st.current⟩).map
        (fun o => ⟨o.result, o.state, o.published⟩) ∧
    run_loop_rotation probe pub (n + 1) st =
      some ⟨⟨setLatencyOfUrl st.pm p.url none, st.current⟩, []⟩ := by
  constructor
  · simp [force_update_loop, hb, hq]
  · simp [run_loop_rotation, hb, hq]

/-- Claim C4, witness for the amended statement at the pool
`[P1 (50ms), P2 (100ms)]` with `P1` failing its re-probe. -/
theorem C4_amended_witness :
    force_update_loop probeFailP1 pubAccept 3 twoState =
      (force_update_loop probeFailP1 pubAccept 2
        ⟨demoteAndPick (setLatencyOfUrl twoState.pm P1.url none) P1.url,
         twoState.current⟩).map
        (fun o => ⟨o.result, o.state, o.published⟩) ∧
    run_loop_rotation probeFailP1 pubAccept 3 twoState =
      some ⟨⟨setLatencyOfUrl twoState.pm P1.url none, twoState.current⟩, []⟩ :=
  C4_amended probeFailP1 pubAccept 2 twoState P1 (by decide) (by decide)

/-- Writing a latency through the alias leaves the pool's url list
unchanged. -/
theorem setLatencyOfUrl_urls (s : PMState) (u : String) (lat : Latency) :
    (setLatencyOfUrl s u lat).proxies.map (fun p => p.url) =
      s.proxies.map (fun p => p.url) := by
  unfold setLatencyOfUrl
  simp only [List.map_map]
  apply List.map_congr_left
  intro x _
  by_cases h : x.url = u <;> simp [h]

/-- Demote-and-repick permutes the pool's url list (no member is evicted
or added). -/
theorem demoteAndPick_urls_perm (s : PMState) (u : String) :
    ((demoteAndPick s u).proxies.map (fun p => p.url)).Perm
      (s.proxies.map (fun p => p.url)) := by
  have hp := (sortProxies_perm (setLatencyOfUrl s u none).proxies).map (fun p => p.url)
  rw [setLatencyOfUrl_urls] at hp
  exact hp

/-- The latency write through the alias maps a member with the aliased
url to the same member with the new latency. -/
theorem mem_setLatencyOfUrl_self {s : PMState} {p : Proxy} (hp : p ∈ s.proxies)
    (lat : Latency) :
    { p with latency := lat } ∈ (setLatencyOfUrl s p.url lat).proxies := by
  unfold setLatencyOfUrl
  have := List.mem_map_of_mem
    (f := fun r => if r.url == p.url then { r with latency := lat } else r) hp
  simpa using this

/-- Claim C2: when the publisher deliberately rejects the current best
candidate (HTTP 200 whose body carries the rejection marker,
`update_remote` → `False`), `force_update` sets that candidate's latency
to the unreachable sentinel, re-sorts the pool, and retries the loop with
the new best candidate; the rejected candidate is still a pool member
(demoted, not evicted) — the pool's url list is a permutation of the old
one and contains the rejected url with sentinel latency, and the
re-sorted pool satisfies the ordering invariant. -/
theorem C2_rejection_demotes_and_retries (probe : String → Latency)
    (pub : String → RemoteOutcome) (n : Nat) (st : UpdaterState) (p : Proxy)
    (q : ℚ) (body : String)
    (hb : getBest st.pm = some p)
    (hq : probe p.url = some q)
    (hpub : pub p.url = RemoteOutcome.response 200 body)
    (hrej : strContains body sessionRegenMarker = true) :
    force_update_loop probe pub (n + 1) st =
      (force_update_loop probe pub n
        ⟨demoteAndPick (setLatencyOfUrl st.pm p.url (some q)) p.url, st.current⟩).map
        (fun o => ⟨o.result, o.state, { p with latency := some q } :: o.published⟩) ∧
    (∃ r ∈ (demoteAndPick (setLatencyOfUrl st.pm p.url (some q)) p.url).proxies,
        r.url = p.url ∧ r.latency = none) ∧
    poolSorted (demoteAndPick (setLatencyOfUrl st.pm p.url (some q)) p.url).proxies ∧
    ((demoteAndPick (setLatencyOfUrl st.pm p.url (some q)) p.url).proxies.map
        (fun r => r.url)).Perm (st.pm.proxies.map (fun r => r.url)) := by
  have hur : update_remote (pub p.url) = some false := by
    simp [update_remote, hpub, hrej]
  obtain ⟨hmem, _⟩ := getBest_eq_some hb
  refine ⟨?_, ?_, ?_, ?_⟩
  · simp [force_update_loop, hb, hq, hur]
  · have h1 : ({ p with latency := some q } : Proxy) ∈
        (setLatencyOfUrl st.pm p.url (some q)).proxies :=
      mem_setLatencyOfUrl_self hmem (some q)
    have h2 : ({ p with latency := none } : Proxy) ∈
        (setLatencyOfUrl (setLatencyOfUrl st.pm p.url (some q)) p.url none).proxies := by
      have := mem_setLatencyOfUrl_self (s := setLatencyOfUrl st.pm p.url (some q))
        (p := { p with latency := some q }) h1 none
      simpa using this
    refine ⟨{ p with latency := none }, ?_, rfl, rfl⟩
    unfold demoteAndPick
    exact ((sortProxies_perm _).mem_iff).mpr h2
  · exact sortProxies_poolSorted _
  · have hp := demoteAndPick_urls_perm (setLatencyOfUrl st.pm p.url (some q)) p.url
    rwa [setLatencyOfUrl_urls] at hp

/-- Claim C2, witness: pool `[P1 (50ms), P2 (100ms)]`, the publisher
rejects `P1` with the marker body. -/
theorem C2_rejection_demotes_and_retries_witness :
    force_update_loop probeAll40 pubRejectP1 3 twoState =
      (force_update_loop probeAll40 pubRejectP1 2
        ⟨demoteAndPick (setLatencyOfUrl twoState.pm P1.url (some 40)) P1.url,
         twoState.current⟩).map
        (fun o => ⟨o.result, o.state, { P1 with latency := some 40 } :: o.published⟩) ∧
    (∃ r ∈ (demoteAndPick (setLatencyOfUrl twoState.pm P1.url (some 40)) P1.url).proxies,
        r.url = P1.url ∧ r.latency = none) ∧
    poolSorted (demoteAndPick (setLatencyOfUrl twoState.pm P1.url (some 40)) P1.url).proxies ∧
    ((demoteAndPick (setLatencyOfUrl twoState.pm P1.url (some 40)) P1.url).proxies.map
        (fun r => r.url)).Perm (twoState.pm.proxies.map (fun r => r.url)) :=
  C2_rejection_demotes_and_retries probeAll40 pubRejectP1 2 twoState P1 40
    sessionRegenMarker (by decide) (by decide) (by decide) (by decide)

/-- A count under a pointwise-smaller predicate is strictly smaller when
some member satisfies the larger predicate but not the smaller one. -/
theorem countP_lt_of_witness {α : Type} (f g : α → Bool) :
    ∀ (l : List α), (∀ x ∈ l, f x = true → g x = true) →
      ∀ a ∈ l, g a = true → f a = false → l.countP f < l.countP g := by
  intro l
  induction l with
  | nil =>
    intro _ a ha
    simp at ha
  | cons b t ih =>
    intro hmono a ha hga hfa
    rw [List.countP_cons, List.countP_cons]
    have hle : t.countP f ≤ t.countP g :=
      List.countP_mono_left (fun x hx hfx => hmono x (List.mem_cons_of_mem _ hx) hfx)
    rcases List.mem_cons.mp ha with rfl | hat
    · rw [hfa, hga]
      simp only [Bool.false_eq_true, if_false, if_true]
      omega
    · have hlt := ih (fun x hx h => hmono x (List.mem_cons_of_mem _ hx) h) a hat hga hfa
      have hhead : (if f b = true then (1 : Nat) else 0) ≤ (if g b = true then 1 else 0) := by
        by_cases hfb : f b = true
        · rw [if_pos hfb, if_pos (hmono b (List.mem_cons_self b t) hfb)]
        · rw [if_neg hfb]
          omega
      omega

/-- Setting latency `lat` on the url-`u` members and then demoting them
to the sentinel is the same as demoting them directly. -/
theorem demote_map_eq (u : String) (lat : Latency) (l : List Proxy) :
    (l.map (fun r => if r.url == u then { r with latency := lat } else r)).map
      (fun r => if r.url == u then { r with latency := none } else r) =
    l.map (fun r => if r.url == u then { r with latency := none } else r) := by
  rw [List.map_map]
  apply List.map_congr_left
  intro x _
  by_cases h : x.url = u
  · simp [h]
  · simp [h]

/-- The reachable-member count after a demote-and-repick of the url-`u`
members (whatever latency the preceding alias write used). -/
theorem countFinite_demote (s : PMState) (u : String) (lat : Latency) :
    countFinite (demoteAndPick (setLatencyOfUrl s u lat) u).proxies =
      countFinite (s.proxies.map
        (fun r => if r.url == u then { r with latency := none } else r)) := by
  unfold countFinite demoteAndPick setLatencyOfUrl
  simp only []
  rw [(sortProxies_perm _).countP_eq, demote_map_eq]

/-- Demoting a reachable member strictly decreases the reachable-member
count. -/
theorem countFinite_demote_lt {s : PMState} {p : Proxy} (lat : Latency)
    (hmem : p ∈ s.proxies) (hfin : p.latency.isSome = true) :
    countFinite (demoteAndPick (setLatencyOfUrl s p.url lat) p.url).proxies <
      countFinite s.proxies := by
  rw [countFinite_demote]
  unfold countFinite
  rw [List.countP_map]
  refine countP_lt_of_witness _ _ s.proxies ?_ p hmem hfin ?_
  · intro x _ hx
    by_cases hu : x.url = p.url
    · simp [hu] at hx
    · simpa [hu] using hx
  · simp

/-- Demote-and-repick never increases the reachable-member count. -/
theorem countFinite_demote_le (s : PMState) (u : String) (lat : Latency) :
    countFinite (demoteAndPick (setLatencyOfUrl s u lat) u).proxies ≤
      countFinite s.proxies := by
  rw [countFinite_demote]
  unfold countFinite
  rw [List.countP_map]
  apply List.countP_mono_left
  intro x _ hx
  by_cases hu : x.url = u
  · simp [hu] at hx
  · simpa [hu] using hx

/-- After demote-and-repick, `best_proxy` is either unset or a reachable
pool member (the head of the re-sorted pool). -/
theorem getBest_demoteAndPick (s : PMState) (u : String) :
    getBest (demoteAndPick s u) = none ∨
    ∃ p, getBest (demoteAndPick s u) = some p ∧ p.latency.isSome = true ∧
      p ∈ (demoteAndPick s u).proxies := by
  cases hsp : sortProxies (setLatencyOfUrl s u none).proxies with
  | nil =>
    left
    have hrec : demoteAndPick s u = ⟨[], none⟩ := by
      unfold demoteAndPick
      rw [hsp]
      rfl
    rw [hrec]
    rfl
  | cons a t =>
    by_cases hl : a.latency = none
    · left
      have hrec : demoteAndPick s u = ⟨a :: t, none⟩ := by
        unfold demoteAndPick
        rw [hsp]
        simp [hl]
      rw [hrec]
      rfl
    · right
      have hrec : demoteAndPick s u = ⟨a :: t, some a.url⟩ := by
        unfold demoteAndPick
        rw [hsp]
        simp [hl]
      refine ⟨a, ?_, ?_, ?_⟩
      · rw [hrec]
        show ((a :: t).find? fun p => p.url == a.url) = some a
        exact List.find?_cons_of_pos _ (by simp)
      · cases hla : a.latency with
        | none => exact absurd hla hl
        | some _ => rfl
      · rw [hrec]
        exact List.mem_cons_self a t

/-- Fuel sufficiency for the force-rotation loop: when `best_proxy` is
unset or a reachable pool member, fuel `count of reachable members + 1`
is never exhausted — each continuing iteration demotes the current
(reachable) best, strictly decreasing that count. -/
theorem force_update_loop_fuel (probe : String → Latency)
    (pub : String → RemoteOutcome) :
    ∀ (n : Nat) (st : UpdaterState),
      countFinite st.pm.proxies ≤ n →
      (getBest st.pm = none ∨
        ∃ p, getBest st.pm = some p ∧ p.latency.isSome = true ∧ p ∈ st.pm.proxies) →
      force_update_loop probe pub (n + 1) st ≠ none := by
  intro n
  induction n with
  | zero =>
    intro st hc hgood
    rcases hgood with hnone | ⟨p, hbp, hfin, hmem⟩
    · simp [force_update_loop, hnone]
    · exfalso
      have hpos : 0 < countFinite st.pm.proxies :=
        List.countP_pos_iff.mpr ⟨p, hmem, hfin⟩
      omega
  | succ n ih =>
    intro st hc hgood
    rcases hgood with hnone | ⟨p, hbp, hfin, hmem⟩
    · simp [force_update_loop, hnone]
    · cases hq : probe p.url with
      | none =>
        have hlt := countFinite_demote_lt (s := st.pm) (p := p) none hmem hfin
        have hrec := ih
          ⟨demoteAndPick (setLatencyOfUrl st.pm p.url none) p.url, st.current⟩
          (by simp only []; omega)
          (getBest_demoteAndPick (setLatencyOfUrl st.pm p.url none) p.url)
        simp only [force_update_loop, hbp, hq, ne_eq, Option.map_eq_none']
        exact hrec
      | some q =>
        cases hur : update_remote (pub p.url) with
        | none =>
          have hlt := countFinite_demote_lt (s := st.pm) (p := p) (some q) hmem hfin
          have hrec := ih
            ⟨demoteAndPick (setLatencyOfUrl st.pm p.url (some q)) p.url, st.current⟩
            (by simp only []; omega)
            (getBest_demoteAndPick (setLatencyOfUrl st.pm p.url (some q)) p.url)
          simp only [force_update_loop, hbp, hq, hur, ne_eq, Option.map_eq_none']
          exact hrec
        | some b =>
          cases b with
          | true => simp [force_update_loop, hbp, hq, hur]
          | false =>
            have hlt := countFinite_demote_lt (s := st.pm) (p := p) (some q) hmem hfin
            have hrec := ih
              ⟨demoteAndPick (setLatencyOfUrl st.pm p.url (some q)) p.url, st.current⟩
              (by simp only []; omega)
              (getBest_demoteAndPick (setLatencyOfUrl st.pm p.url (some q)) p.url)
            simp only [force_update_loop, hbp, hq, hur, ne_eq, Option.map_eq_none']
            exact hrec

/-- Fuel sufficiency for the tick loop's rotation block, mirroring
`force_update_loop_fuel` (the re-verification-failure branch returns
immediately, so only publish failures recurse). -/
theorem run_loop_rotation_fuel (probe : String → Latency)
    (pub : String → RemoteOutcome) :
    ∀ (n : Nat) (st : UpdaterState),
      countFinite st.pm.proxies ≤ n →
      (getBest st.pm = none ∨
        ∃ p, getBest st.pm = some p ∧ p.latency.isSome = true ∧ p ∈ st.pm.proxies) →
      run_loop_rotation probe pub (n + 1) st ≠ none := by
  intro n
  induction n with
  | zero =>
    intro st hc hgood
    rcases hgood with hnone | ⟨p, hbp, hfin, hmem⟩
    · simp [run_loop_rotation, hnone]
    · exfalso
      have hpos : 0 < countFinite st.pm.proxies :=
        List.countP_pos_iff.mpr ⟨p, hmem, hfin⟩
      omega
  | succ n ih =>
    intro st hc hgood
    rcases hgood with hnone | ⟨p, hbp, hfin, hmem⟩
    · simp [run_loop_rotation, hnone]
    · cases hq : probe p.url with
      | none => simp [run_loop_rotation, hbp, hq]
      | some q =>
        cases hur : update_remote (pub p.url) with
        | none =>
          have hlt := countFinite_demote_lt (s := st.pm) (p := p) (some q) hmem hfin
          have hrec := ih
            ⟨demoteAndPick (setLatencyOfUrl st.pm p.url (some q)) p.url, st.current⟩
            (by simp only []; omega)
            (getBest_demoteAndPick (setLatencyOfUrl st.pm p.url (some q)) p.url)
          simp only [run_loop_rotation, hbp, hq, hur, ne_eq, Option.map_eq_none']
          exact hrec
        | some b =>
          cases b with
          | true => simp [run_loop_rotation, hbp, hq, hur]
          | false =>
            have hlt := countFinite_demote_lt (s := st.pm) (p := p) (some q) hmem hfin
            have hrec := ih
              ⟨demoteAndPick (setLatencyOfUrl st.pm p.url (some q)) p.url, st.current⟩
              (by simp only []; omega)
              (getBest_demoteAndPick (setLatencyOfUrl st.pm p.url (some q)) p.url)
            simp only [run_loop_rotation, hbp, hq, hur, ne_eq, Option.map_eq_none']
            exact hrec

/-- Claim C9: both rotation retry loops (`while best_proxy:` in the
tick's step 3 and in force rotation) terminate for every finite pool
state: each continuing iteration demotes the current best to the
unreachable sentinel, strictly decreasing the number of reachable
members, so fuel `pool size + 2` (pool-size-many productive iterations,
one slot for an initially stale best, one final loop test) is never
exhausted. -/
theorem C9_retry_loops_terminate (probe : String → Latency)
    (pub : String → RemoteOutcome) (st : UpdaterState) :
    force_update_loop probe pub (st.pm.proxies.length + 2) st ≠ none ∧
    run_loop_rotation probe pub (st.pm.proxies.length + 2) st ≠ none := by
  have hcl : countFinite st.pm.proxies ≤ st.pm.proxies.length :=
    List.countP_le_length _
  constructor
  · cases hbp : getBest st.pm with
    | none => simp [show st.pm.proxies.length + 2 = (st.pm.proxies.length + 1) + 1 from rfl,
        force_update_loop, hbp]
    | some p =>
      obtain ⟨hmem, -⟩ := getBest_eq_some hbp
      cases hq : probe p.url with
      | none =>
        have hle := countFinite_demote_le st.pm p.url none
        have h := force_update_loop_fuel probe pub st.pm.proxies.length
          ⟨demoteAndPick (setLatencyOfUrl st.pm p.url none) p.url, st.current⟩
          (by simp only []; omega)
          (getBest_demoteAndPick (setLatencyOfUrl st.pm p.url none) p.url)
        show force_update_loop probe pub ((st.pm.proxies.length + 1) + 1) st ≠ none
        simp only [force_update_loop, hbp, hq, ne_eq, Option.map_eq_none']
        exact h
      | some q =>
        cases hur : update_remote (pub p.url) with
        | none =>
          have hle := countFinite_demote_le st.pm p.url (some q)
          have h := force_update_loop_fuel probe pub st.pm.proxies.length
            ⟨demoteAndPick (setLatencyOfUrl st.pm p.url (some q)) p.url, st.current⟩
            (by simp only []; omega)
            (getBest_demoteAndPick (setLatencyOfUrl st.pm p.url (some q)) p.url)
          show force_update_loop probe pub ((st.pm.proxies.length + 1) + 1) st ≠ none
          simp only [force_update_loop, hbp, hq, hur, ne_eq, Option.map_eq_none']
          exact h
        | some b =>
          cases b with
          | true =>
            show force_update_loop probe pub ((st.pm.proxies.length + 1) + 1) st ≠ none
            simp [force_update_loop, hbp, hq, hur]
          | false =>
            have hle := countFinite_demote_le st.pm p.url (some q)
            have h := force_update_loop_fuel probe pub st.pm.proxies.length
              ⟨demoteAndPick (setLatencyOfUrl st.pm p.url (some q)) p.url, st.current⟩
              (by simp only []; omega)
              (getBest_demoteAndPick (setLatencyOfUrl st.pm p.url (some q)) p.url)
            show force_update_loop probe pub ((st.pm.proxies.length + 1) + 1) st ≠ none
            simp only [force_update_loop, hbp, hq, hur, ne_eq, Option.map_eq_none']
            exact h
  · cases hbp : getBest st.pm with
    | none => simp [show st.pm.proxies.length + 2 = (st.pm.proxies.length + 1) + 1 from rfl,
        run_loop_rotation, hbp]
    | some p =>
      obtain ⟨hmem, -⟩ := getBest_eq_some hbp
      cases hq : probe p.url with
      | none =>
        show run_loop_rotation probe pub ((st.pm.proxies.length + 1) + 1) st ≠ none
        simp [run_loop_rotation, hbp, hq]
      | some q =>
        cases hur : update_remote (pub p.url) with
        | none =>
          have hle := countFinite_demote_le st.pm p.url (some q)
          have h := run_loop_rotation_fuel probe pub st.pm.proxies.length
            ⟨demoteAndPick (setLatencyOfUrl st.pm p.url (some q)) p.url, st.current⟩
            (by simp only []; omega)
            (getBest_demoteAndPick (setLatencyOfUrl st.pm p.url (some q)) p.url)
          show run_loop_rotation probe pub ((st.pm.proxies.length + 1) + 1) st ≠ none
          simp only [run_loop_rotation, hbp, hq, hur, ne_eq, Option.map_eq_none']
          exact h
        | some b =>
          cases b with
          | true =>
            show run_loop_rotation probe pub ((st.pm.proxies.length + 1) + 1) st ≠ none
            simp [run_loop_rotation, hbp, hq, hur]
          | false =>
            have hle := countFinite_demote_le st.pm p.url (some q)
            have h := run_loop_rotation_fuel probe pub st.pm.proxies.length
              ⟨demoteAndPick (setLatencyOfUrl st.pm p.url (some q)) p.url, st.current⟩
              (by simp only []; omega)
              (getBest_demoteAndPick (setLatencyOfUrl st.pm p.url (some q)) p.url)
            show run_loop_rotation probe pub ((st.pm.proxies.length + 1) + 1) st ≠ none
            simp only [run_loop_rotation, hbp, hq, hur, ne_eq, Option.map_eq_none']
            exact h

/-- Writing a latency through the alias rewrites the `find?` result
member-wise. -/
theorem getBest_setLatency_self {s : PMState} {p : Proxy} (hb : getBest s = some p)
    (lat : Latency) :
    getBest (setLatencyOfUrl s p.url lat) = some { p with latency := lat } := by
  obtain ⟨-, hbest⟩ := getBest_eq_some hb
  have hfind : s.proxies.find? (fun r => r.url == p.url) = some p := by
    unfold getBest at hb
    rw [hbest] at hb
    simpa using hb
  show (setLatencyOfUrl s p.url lat).best.bind
      (fun u => (setLatencyOfUrl s p.url lat).proxies.find? (fun r => r.url == u)) = _
  have hbest2 : (setLatencyOfUrl s p.url lat).best = some p.url := hbest
  rw [hbest2]
  simp only [Option.some_bind]
  unfold setLatencyOfUrl
  simp only []
  rw [List.find?_map]
  have hpred : ((fun r : Proxy => r.url == p.url) ∘
      (fun r : Proxy => if r.url == p.url then { r with latency := lat } else r)) =
      (fun r : Proxy => r.url == p.url) := by
    funext r
    by_cases h : r.url = p.url <;> simp [Function.comp, h]
  rw [hpred, hfind]
  simp

/-- Claim C10: force rotation never consults the currently active proxy.
Whenever the pool's best candidate re-verifies reachable and the
publisher accepts it, `force_update` publishes it and reassigns the
active proxy — for any value of `current_proxy`, including one already
identical to the candidate — and a second immediate `force_update` over
the unchanged healthy pool publishes again (its publish list is again
non-empty) rather than being a no-op. -/
theorem C10_force_update_ignores_current (probe : String → Latency)
    (pub : String → RemoteOutcome) (refreshed : PMState) (pm : PMState)
    (cur : Option Proxy) (p : Proxy) (q : ℚ) (fuel : Nat)
    (hb : getBest pm = some p)
    (hq : probe p.url = some q)
    (ha : update_remote (pub p.url) = some true) :
    ∃ o1 o2,
      force_update probe pub refreshed (fuel + 1) ⟨pm, cur⟩ = some o1 ∧
      o1.result.status = "success" ∧
      o1.published = [{ p with latency := some q }] ∧
      o1.state.current = some { p with latency := some q } ∧
      force_update probe pub refreshed (fuel + 1) o1.state = some o2 ∧
      o2.result.status = "success" ∧
      o2.published = [{ p with latency := some q }] := by
  obtain ⟨-, hbest⟩ := getBest_eq_some hb
  have hstep1 : force_update probe pub refreshed (fuel + 1) ⟨pm, cur⟩ =
      some ⟨⟨"success", "Updated to " ++ p.url, some { p with latency := some q }⟩,
            ⟨setLatencyOfUrl pm p.url (some q), some { p with latency := some q }⟩,
            [{ p with latency := some q }]⟩ := by
    simp [force_update, force_update_loop, hbest, hb, hq, ha]
  have hb2 : getBest (setLatencyOfUrl pm p.url (some q)) =
      some { p with latency := some q } :=
    getBest_setLatency_self hb (some q)
  have hbest2 : (setLatencyOfUrl pm p.url (some q)).best = some p.url := hbest
  have hstep2 : force_update probe pub refreshed (fuel + 1)
      ⟨setLatencyOfUrl pm p.url (some q), some { p with latency := some q }⟩ =
      some ⟨⟨"success", "Updated to " ++ p.url, some { p with latency := some q }⟩,
            ⟨setLatencyOfUrl (setLatencyOfUrl pm p.url (some q)) p.url (some q),
             some { p with latency := some q }⟩,
            [{ p with latency := some q }]⟩ := by
    simp [force_update, force_update_loop, hbest2, hb2, hq, ha]
  exact ⟨_, _, hstep1, rfl, rfl, rfl, hstep2, rfl, rfl⟩

/-- Claim C10, witness: pool `[P1]`, healthy probe, accepting publisher,
arbitrary-free concrete inputs — both immediate force rotations publish. -/
theorem C10_force_update_ignores_current_witness :
    ∃ o1 o2,
      force_update probeAll40 pubAccept ⟨[], none⟩ (0 + 1) ⟨onePool, none⟩ = some o1 ∧
      o1.result.status = "success" ∧
      o1.published = [{ P1 with latency := some 40 }] ∧
      o1.state.current = some { P1 with latency := some 40 } ∧
      force_update probeAll40 pubAccept ⟨[], none⟩ (0 + 1) o1.state = some o2 ∧
      o2.result.status = "success" ∧
      o2.published = [{ P1 with latency := some 40 }] :=
  C10_force_update_ignores_current probeAll40 pubAccept ⟨[], none⟩ onePool none P1 40 0
    (by decide) (by decide) (by decide)

end ProxyRotation
